import Mathlib

set_option maxHeartbeats 1000000

/-!
Shallow embedding of the face-recognition attendance backend
(src/backend/server.py).  The Mongo database is modelled as two lists
(collections `persons` and `attendance`) in insertion order; every route
handler becomes a pure function on that state.  The two distinct clocks the
source reads (`datetime.utcnow` for timestamps and `datetime.now` for the
calendar-day key) are passed in explicitly as a `Clock` value; calendar-day
keys (`strftime "%Y-%m-%d"`) are modelled as the decimal string of the day
number of a minutes-since-epoch instant.  Mongo operations are modelled as:
`find_one f` = first list element matching `f`; `insert_one` = append;
`delete_one f` = erase the first match; `delete_many f` = drop all matches;
`find(f).to_list(n)` = the first `n` matches; `sort("timestamp", -1)` =
stable merge sort by decreasing timestamp; `count_documents f` = number of
matches.  Floats (`confidence`, `attendance_rate`) are modelled as exact
rationals, with Python `round(x, 2)` modelled as round-half-to-even at two
decimal places.
-/

namespace FaceAttend

/-- Model of `Person` (server.py lines 31-38): `created_at` is stamped from
the UTC clock at creation. -/
structure Person where
  id : String
  name : String
  employee_id : String
  face_descriptor : String
  photo : String
  role : String
  created_at : Nat
deriving DecidableEq

/-- Model of `PersonCreate` (server.py lines 40-45), the caller-supplied
registration payload. -/
structure PersonCreate where
  name : String
  employee_id : String
  face_descriptor : String
  photo : String
  role : String
deriving DecidableEq

/-- Model of `AttendanceRecord` (server.py lines 47-55): `timestamp` is
stamped from `datetime.utcnow`, `date` from `datetime.now().strftime`. -/
structure AttendanceRecord where
  id : String
  person_id : String
  person_name : String
  employee_id : String
  timestamp : Nat
  date : String
  confidence : ℚ
  photo : Option String
deriving DecidableEq

/-- Model of `AttendanceCreate` (server.py lines 57-62), the caller-supplied
marking payload with the denormalized snapshot fields. -/
structure AttendanceCreate where
  person_id : String
  person_name : String
  employee_id : String
  confidence : ℚ
  photo : Option String
deriving DecidableEq

/-- Model of `AttendanceStats` (server.py lines 64-68). -/
structure AttendanceStats where
  total_registered : Nat
  present_today : Nat
  absent_today : Int
  attendance_rate : ℚ
deriving DecidableEq

/-- Model of an HTTPException raised by a route handler. -/
structure HTTPError where
  status : Nat
  detail : String
deriving DecidableEq

/-- The two Mongo collections, in insertion (natural) order. -/
structure DB where
  persons : List Person
  attendance : List AttendanceRecord
deriving DecidableEq

/-- One reading of the process clocks: `utcNow` models `datetime.utcnow` and
`localNow` models `datetime.now`, both as minutes since the epoch.  The two
differ by the local UTC offset. -/
structure Clock where
  utcNow : Nat
  localNow : Nat
deriving DecidableEq

/-- Model of `strftime("%Y-%m-%d")`: the calendar-day key of an instant,
rendered as the decimal string of its day number (1440 minutes per day).
Distinct day numbers give distinct key strings. -/
def dayKey (t : Nat) : String :=
  toString (t / 1440)

/-- The duplicate-employee-id pre-check of `create_person` (server.py line
76): `find_one` on the `persons` collection by `employee_id`. -/
def create_person_check (db : DB) (eid : String) : Bool :=
  (db.persons.find? (fun p => p.employee_id == eid)).isSome

/-- Construction of the persisted `Person` (server.py lines 80-81): the
server generates the id and stamps `created_at` from the UTC clock. -/
def mkPerson (d : PersonCreate) (newId : String) (clk : Clock) : Person :=
  ⟨newId, d.name, d.employee_id, d.face_descriptor, d.photo, d.role, clk.utcNow⟩

/-- The `insert_one` storage call of `create_person` (server.py line 83).
The model store has no unique index: an insert always succeeds. -/
def create_person_insert (db : DB) (p : Person) : DB :=
  ⟨db.persons ++ [p], db.attendance⟩

/-- Model of the `POST /persons` handler `create_person` (server.py lines
71-88): check for an existing `employee_id`, else insert and return the new
`Person`.  The pair carries the resulting store state. -/
def create_person (db : DB) (d : PersonCreate) (newId : String) (clk : Clock) :
    Except HTTPError Person × DB :=
  if create_person_check db d.employee_id then
    (Except.error ⟨400, "Employee ID already exists"⟩, db)
  else
    (Except.ok (mkPerson d newId clk), create_person_insert db (mkPerson d newId clk))

/-- Model of the `GET /persons` handler (server.py lines 90-97):
`find().to_list(1000)`. -/
def get_all_persons (db : DB) : List Person :=
  db.persons.take 1000

/-- Model of the `GET /persons/{id}` handler (server.py lines 99-110). -/
def get_person (db : DB) (pid : String) : Except HTTPError Person :=
  match db.persons.find? (fun p => p.id == pid) with
  | none => Except.error ⟨404, "Person not found"⟩
  | some p => Except.ok p

/-- First storage call of `delete_person` (server.py line 116):
`delete_one` on `persons` removes the first document with the given id. -/
def delete_person_step1 (db : DB) (pid : String) : DB :=
  ⟨db.persons.eraseP (fun p => p.id == pid), db.attendance⟩

/-- Second storage call of `delete_person` (server.py line 121):
`delete_many` on `attendance` removes every record of that person. -/
def delete_person_step2 (db : DB) (pid : String) : DB :=
  ⟨db.persons, db.attendance.filter (fun r => !(r.person_id == pid))⟩

/-- Model of the `DELETE /persons/{id}` handler (server.py lines 112-127):
`delete_one` the person (404 when `deleted_count = 0`), then `delete_many`
the attendance records, as two successive storage calls. -/
def delete_person (db : DB) (pid : String) : Except HTTPError Unit × DB :=
  if db.persons.any (fun p => p.id == pid) then
    (Except.ok (), delete_person_step2 (delete_person_step1 db pid) pid)
  else
    (Except.error ⟨404, "Person not found"⟩, db)

/-- The already-marked pre-check of `mark_attendance` (server.py lines
141-144): `find_one` on `attendance` by `(person_id, date)`. -/
def mark_attendance_check (db : DB) (pid : String) (today : String) : Bool :=
  (db.attendance.find? (fun r => r.person_id == pid && r.date == today)).isSome

/-- Construction of the persisted `AttendanceRecord` (server.py lines
149-150): server-generated id, `timestamp` from the UTC clock, `date` from
the local clock, snapshot fields from the caller. -/
def mkAttendanceRecord (d : AttendanceCreate) (newId : String) (clk : Clock) :
    AttendanceRecord :=
  ⟨newId, d.person_id, d.person_name, d.employee_id, clk.utcNow,
    dayKey clk.localNow, d.confidence, d.photo⟩

/-- The `insert_one` storage call of `mark_attendance` (server.py line 152).
The model store has no unique compound index: an insert always succeeds. -/
def mark_attendance_insert (db : DB) (r : AttendanceRecord) : DB :=
  ⟨db.persons, db.attendance ++ [r]⟩

/-- Model of the `POST /attendance` handler `mark_attendance` (server.py
lines 130-157): resolve the person (404), check `(person_id, today)` (400),
else insert and return the new record. -/
def mark_attendance (db : DB) (d : AttendanceCreate) (newId : String) (clk : Clock) :
    Except HTTPError AttendanceRecord × DB :=
  if (db.persons.find? (fun p => p.id == d.person_id)).isNone then
    (Except.error ⟨404, "Person not found"⟩, db)
  else
    if mark_attendance_check db d.person_id (dayKey clk.localNow) then
      (Except.error ⟨400, "Attendance already marked for today"⟩, db)
    else
      (Except.ok (mkAttendanceRecord d newId clk),
        mark_attendance_insert db (mkAttendanceRecord d newId clk))

/-- Model of the `GET /attendance/today` handler (server.py lines 159-167):
`find` by the current local-clock day key, capped at 1000. -/
def get_today_attendance (db : DB) (clk : Clock) : List AttendanceRecord :=
  (db.attendance.filter (fun r => r.date == dayKey clk.localNow)).take 1000

/-- Round half to even at integer precision, the semantics of Python
`round` applied to the exact rational value. -/
def roundHalfEven (q : ℚ) : ℤ :=
  if q - ⌊q⌋ < 1/2 then ⌊q⌋
  else if 1/2 < q - ⌊q⌋ then ⌊q⌋ + 1
  else if ⌊q⌋ % 2 = 0 then ⌊q⌋ else ⌊q⌋ + 1

/-- Model of Python `round(x, 2)`: round half to even at two decimals. -/
def round2 (q : ℚ) : ℚ :=
  (roundHalfEven (q * 100) : ℚ) / 100

/-- Model of the `GET /attendance/stats` handler (server.py lines 169-188):
counts over the two collections, clamped subtraction, and the guarded rate
rounded to two decimals.  It performs no writes: the store is unchanged. -/
def get_attendance_stats (db : DB) (clk : Clock) : AttendanceStats :=
  let total := db.persons.length
  let present := (db.attendance.filter (fun r => r.date == dayKey clk.localNow)).length
  ⟨total, present, max 0 ((total : Int) - (present : Int)),
    round2 (if total > 0 then (present : ℚ) / (total : ℚ) * 100 else 0)⟩

/-- Model of the `GET /attendance/history/{person_id}` handler (server.py
lines 190-197): `find` by person, stable sort by `timestamp` descending,
capped at 100. -/
def get_person_attendance_history (db : DB) (pid : String) : List AttendanceRecord :=
  (((db.attendance.filter (fun r => r.person_id == pid)).mergeSort
      (fun a b => b.timestamp ≤ a.timestamp)).take 100)

/-- Model of the `GET /attendance/date/{date_str}` handler (server.py lines
199-206): `find` by the given date string, capped at 1000.  The input
string is used as an exact match key with no validation, and the handler
has no business-failure path. -/
def get_attendance_by_date (db : DB) (s : String) : List AttendanceRecord :=
  (db.attendance.filter (fun r => r.date == s)).take 1000

/-- The `(person_id, date)` keys of a list of attendance records, the
uniqueness partition of invariant I2. -/
def pairKeys (l : List AttendanceRecord) : List (String × String) :=
  l.map (fun r => (r.person_id, r.date))

end FaceAttend

namespace FaceAttend

/-- The stats record as the specification states it: counts of persons and
of records dated today, clamped absence, and a rate that is 0 for an empty
registry and otherwise the rounded percentage. -/
def statsSpec (db : DB) (c : Clock) : AttendanceStats :=
  let total := db.persons.length
  let present := (db.attendance.filter (fun r => r.date == dayKey c.localNow)).length
  ⟨total, present, max 0 ((total : Int) - (present : Int)),
    if total = 0 then 0 else round2 ((present : ℚ) / (total : ℚ) * 100)⟩

/-- A registered person used as a concrete store fixture. -/
def personP : Person := ⟨"p1", "Alice", "EMP001", "fd", "ph", "employee", 0⟩

/-- An attendance record of `personP` on day "0", used as a fixture. -/
def recP : AttendanceRecord := ⟨"a1", "p1", "Alice", "EMP001", 5, "0", 1, none⟩

/-- The empty store. -/
def dbEmpty : DB := ⟨[], []⟩

/-- A store holding one person and one of their attendance records. -/
def dbC3 : DB := ⟨[personP], [recP]⟩

/-- A store holding one person and no attendance records. -/
def dbOneP : DB := ⟨[personP], []⟩

/-- A marking payload for `personP`. -/
def dW : AttendanceCreate := ⟨"p1", "Alice", "EMP001", 1, none⟩

/-- A clock reading within day "0" in both local time and UTC. -/
def cC3 : Clock := ⟨5, 5⟩

/-- A clock reading where UTC is already on day "1" while local time is
still on day "0" (a negative UTC offset around midnight). -/
def cW : Clock := ⟨1500, 10⟩

/-- A registration payload with employee id "EMP001". -/
def pcA : PersonCreate := ⟨"Alice", "EMP001", "fd", "ph", "employee"⟩

/-- A second registration payload with the same employee id "EMP001". -/
def pcB : PersonCreate := ⟨"Bob", "EMP001", "fd2", "ph2", "employee"⟩

/-- The store produced by interleaving two registrations of "EMP001": both
pre-checks run against `dbEmpty`, then both inserts run. -/
def raceDb : DB :=
  create_person_insert (create_person_insert dbEmpty (mkPerson pcA "u1" ⟨0, 0⟩))
    (mkPerson pcB "u2" ⟨0, 0⟩)

/-- One of 1001 attendance records all dated "0", used to exhibit the
1000-row query cap. -/
def bigRec (i : Nat) : AttendanceRecord := ⟨"", "p1", "Alice", "EMP001", i, "0", 1, none⟩

/-- A store holding 1001 attendance records dated "0". -/
def dbBig : DB := ⟨[], (List.range 1001).map bigRec⟩

theorem create_person_check_iff (db : DB) (eid : String) :
    create_person_check db eid = true ↔ ∃ p ∈ db.persons, p.employee_id = eid := by
  simp [create_person_check, List.find?_isSome]

theorem mark_attendance_check_iff (db : DB) (pid today : String) :
    mark_attendance_check db pid today = true ↔
      ∃ r ∈ db.attendance, r.person_id = pid ∧ r.date = today := by
  simp [mark_attendance_check, List.find?_isSome]

theorem eraseP_no_key (pid : String) (l : List Person)
    (hnd : (l.map Person.id).Nodup) :
    ∀ q ∈ l.eraseP (fun p => p.id == pid), q.id ≠ pid := by
  induction l with
  | nil => simp
  | cons a l ih =>
    have hnd' : (l.map Person.id).Nodup := (List.nodup_cons.mp (by simpa using hnd)).2
    have hnotin : a.id ∉ l.map Person.id := (List.nodup_cons.mp (by simpa using hnd)).1
    intro q hq hqid
    by_cases ha : a.id = pid
    · rw [List.eraseP_cons_of_pos (by simpa using ha)] at hq
      exact hnotin (by rw [ha, ← hqid]; exact List.mem_map_of_mem _ hq)
    · rw [List.eraseP_cons_of_neg (by simpa using ha)] at hq
      rcases List.mem_cons.mp hq with rfl | hq'
      · exact ha hqid
      · exact ih hnd' q hq' hqid

theorem mark_attendance_absent (db : DB) (d : AttendanceCreate) (i : String) (c : Clock)
    (hall : ∀ p ∈ db.persons, p.id ≠ d.person_id) :
    mark_attendance db d i c = (Except.error ⟨404, "Person not found"⟩, db) := by
  have hnone : (db.persons.find? (fun p => p.id == d.person_id)).isNone = true := by
    rw [Option.isNone_iff_eq_none, List.find?_eq_none]
    intro p hp
    simpa using hall p hp
  rw [mark_attendance, hnone]
  simp

theorem round2_zero : round2 0 = 0 := by
  rw [round2, roundHalfEven]
  norm_num

end FaceAttend

namespace FaceAttend

/-- C1: for every store in which no two attendance records share a
`(person_id, date)` pair, `mark_attendance` preserves that invariant on
every path, and when the person exists and a record for `(person, today)`
is already stored, the call fails with the 400 already-marked error and
leaves the store unchanged, so at most one mark per person per day ever
succeeds. -/
theorem mark_attendance_unique_per_day (db : DB) (d : AttendanceCreate) (i : String) (c : Clock)
    (hnd : (pairKeys db.attendance).Nodup) :
    (pairKeys (mark_attendance db d i c).2.attendance).Nodup ∧
    ((∃ p ∈ db.persons, p.id = d.person_id) →
      (∃ r ∈ db.attendance, r.person_id = d.person_id ∧ r.date = dayKey c.localNow) →
      mark_attendance db d i c =
        (Except.error ⟨400, "Attendance already marked for today"⟩, db)) := by
  by_cases hp : (db.persons.find? (fun p => p.id == d.person_id)).isNone = true
  · constructor
    · rw [mark_attendance, hp]
      simpa using hnd
    · intro hex _
      rcases hex with ⟨p, hpmem, hpid⟩
      rw [Option.isNone_iff_eq_none, List.find?_eq_none] at hp
      exact absurd (by simpa using hpid) (hp p hpmem)
  · have hp' : (db.persons.find? (fun p => p.id == d.person_id)).isNone = false := by
      simpa using hp
    by_cases hm : mark_attendance_check db d.person_id (dayKey c.localNow) = true
    · constructor
      · rw [mark_attendance, hp', hm]
        simpa using hnd
      · intro _ _
        rw [mark_attendance, hp', hm]
        simp
    · have hm' : mark_attendance_check db d.person_id (dayKey c.localNow) = false := by
        simpa using hm
      constructor
      · rw [mark_attendance, hp', hm']
        simp only [Bool.false_eq_true, if_false, mark_attendance_insert, pairKeys,
          List.map_append, List.map_cons, List.map_nil]
        rw [List.nodup_append]
        refine ⟨hnd, List.nodup_singleton _, ?_⟩
        intro a ha hb
        simp only [List.mem_singleton] at hb
        rcases List.mem_map.mp ha with ⟨r, hr, rfl⟩
        have hkey : r.person_id = d.person_id ∧ r.date = dayKey c.localNow := by
          have := hb
          simp only [mkAttendanceRecord, Prod.mk.injEq] at this
          exact this
        exact hm ((mark_attendance_check_iff db d.person_id (dayKey c.localNow)).mpr ⟨r, hr, hkey⟩)
      · intro _ hex
        exact absurd ((mark_attendance_check_iff db d.person_id (dayKey c.localNow)).mpr hex) hm

/-- C1 witness: in a store already holding the record of `personP` for day
"0", a second mark of that person on day "0" fails with the already-marked
error and the store keeps its unique `(person_id, date)` keys. -/
theorem mark_attendance_unique_per_day_witness :
    (pairKeys (mark_attendance dbC3 dW "a2" cC3).2.attendance).Nodup ∧
    mark_attendance dbC3 dW "a2" cC3 =
      (Except.error ⟨400, "Attendance already marked for today"⟩, dbC3) := by
  have h := mark_attendance_unique_per_day dbC3 dW "a2" cC3 (by decide)
  exact ⟨h.1, h.2 (by decide) (by decide)⟩

/-- C2: `create_person` preserves uniqueness of `employee_id`; a
registration whose `employee_id` is already stored fails with the 400
duplicate error and leaves both collections unchanged; a registration with
a fresh `employee_id` returns the new person, built with the
server-generated id and `created_at`, and appends exactly that person,
leaving the attendance collection unchanged. -/
theorem create_person_spec (db : DB) (d : PersonCreate) (i : String) (c : Clock) :
    ((db.persons.map Person.employee_id).Nodup →
      ((create_person db d i c).2.persons.map Person.employee_id).Nodup) ∧
    ((∃ p ∈ db.persons, p.employee_id = d.employee_id) →
      create_person db d i c = (Except.error ⟨400, "Employee ID already exists"⟩, db)) ∧
    ((∀ p ∈ db.persons, p.employee_id ≠ d.employee_id) →
      create_person db d i c =
        (Except.ok (mkPerson d i c), ⟨db.persons ++ [mkPerson d i c], db.attendance⟩)) := by
  by_cases h : create_person_check db d.employee_id = true
  · refine ⟨?_, ?_, ?_⟩
    · intro hnd
      rw [create_person, h]
      simpa using hnd
    · intro _
      rw [create_person, h]
      simp
    · intro hall
      rcases (create_person_check_iff db d.employee_id).mp h with ⟨p, hp, hpe⟩
      exact absurd hpe (hall p hp)
  · have h' : create_person_check db d.employee_id = false := by
      simpa using h
    have hfresh : ∀ p ∈ db.persons, p.employee_id ≠ d.employee_id := by
      intro p hp he
      exact h ((create_person_check_iff db d.employee_id).mpr ⟨p, hp, he⟩)
    refine ⟨?_, ?_, ?_⟩
    · intro hnd
      rw [create_person, h']
      simp only [Bool.false_eq_true, if_false, create_person_insert]
      simp only [List.map_append, List.map_cons, List.map_nil]
      rw [List.nodup_append]
      refine ⟨hnd, List.nodup_singleton _, ?_⟩
      intro a ha hb
      simp only [List.mem_singleton] at hb
      rcases List.mem_map.mp ha with ⟨p, hp, rfl⟩
      exact hfresh p hp (by simpa [mkPerson] using hb)
    · intro hex
      rcases hex with ⟨p, hp, hpe⟩
      exact absurd hpe (hfresh p hp)
    · intro _
      rw [create_person, h']
      simp [create_person_insert]

/-- C2 witness: registering "EMP001" into a store already holding it fails
with the duplicate error and changes nothing, while registering it into the
empty store persists exactly the one new person. -/
theorem create_person_spec_witness :
    create_person dbOneP pcA "u2" ⟨0, 0⟩ =
      (Except.error ⟨400, "Employee ID already exists"⟩, dbOneP) ∧
    (create_person dbEmpty pcA "u1" ⟨0, 0⟩).2.persons = [mkPerson pcA "u1" ⟨0, 0⟩] := by
  refine ⟨(create_person_spec dbOneP pcA "u2" ⟨0, 0⟩).2.1 (by decide), ?_⟩
  have h := (create_person_spec dbEmpty pcA "u1" ⟨0, 0⟩).2.2 (by decide)
  rw [h]
  rfl

end FaceAttend

namespace FaceAttend

/-- C3 counterexample: `delete_person` is two successive storage calls, and
the state after the first (the person deleted, their attendance records
still stored) is exactly the partial-delete state the claim says is never
observable; with concurrent request handling against the shared store,
readers can run between the two calls. -/
theorem delete_not_atomic_cex :
    (delete_person dbC3 "p1").2 = delete_person_step2 (delete_person_step1 dbC3 "p1") "p1" ∧
    ((delete_person_step1 dbC3 "p1").persons.any (fun p => p.id == "p1")) = false ∧
    ((delete_person_step1 dbC3 "p1").attendance.any (fun r => r.person_id == "p1")) = true := by
  decide

/-- C3 amended: `delete_person` fails with 404 when no person has the id
and leaves the store unchanged; otherwise it reports success and its final
state, reached via the person deletion followed by the attendance cascade,
holds no attendance record of that person and (when ids are unique) no
person with that id. -/
theorem delete_person_spec (db : DB) (pid : String) :
    ((∀ p ∈ db.persons, p.id ≠ pid) →
      delete_person db pid = (Except.error ⟨404, "Person not found"⟩, db)) ∧
    ((∃ p ∈ db.persons, p.id = pid) →
      (delete_person db pid).1 = Except.ok () ∧
      (delete_person db pid).2 = delete_person_step2 (delete_person_step1 db pid) pid ∧
      (∀ r ∈ (delete_person db pid).2.attendance, r.person_id ≠ pid) ∧
      ((db.persons.map Person.id).Nodup →
        ∀ q ∈ (delete_person db pid).2.persons, q.id ≠ pid)) := by
  by_cases h : db.persons.any (fun p => p.id == pid) = true
  · have hex : ∃ p ∈ db.persons, p.id = pid := by
      simpa using h
    refine ⟨?_, ?_⟩
    · intro hall
      rcases hex with ⟨p, hp, hpe⟩
      exact absurd hpe (hall p hp)
    · intro _
      rw [delete_person, h]
      refine ⟨rfl, rfl, ?_, ?_⟩
      · intro r hr
        have h2 : r ∈ db.attendance ∧ ¬ r.person_id = pid := by
          simpa [delete_person_step2, delete_person_step1] using hr
        exact h2.2
      · intro hnd q hq
        exact eraseP_no_key pid db.persons hnd q
          (by simpa [delete_person_step2, delete_person_step1] using hq)
  · have h' : db.persons.any (fun p => p.id == pid) = false := by
      simpa using h
    refine ⟨?_, ?_⟩
    · intro _
      rw [delete_person, h']
      simp
    · intro hex
      exact absurd (by simpa using hex) h

/-- C3 witness: deleting a missing id from the empty store fails with 404,
and deleting `personP` from a store with their record reports success and
leaves no attendance record of theirs. -/
theorem delete_person_spec_witness :
    delete_person dbEmpty "zz" = (Except.error ⟨404, "Person not found"⟩, dbEmpty) ∧
    (delete_person dbC3 "p1").1 = Except.ok () ∧
    (∀ r ∈ (delete_person dbC3 "p1").2.attendance, r.person_id ≠ "p1") := by
  refine ⟨(delete_person_spec dbEmpty "zz").1 (by decide), ?_⟩
  have h := (delete_person_spec dbC3 "p1").2 (by decide)
  exact ⟨h.1, h.2.2.1⟩

/-- C4: marking a `person_id` for which no person is currently stored fails
with the 404 person-not-found error and leaves the store unchanged; in
particular, after a successful deletion of that person (ids being unique),
a mark for them fails the same way and creates no record. -/
theorem mark_attendance_person_not_found (db : DB) (d : AttendanceCreate) (i : String) (c : Clock) :
    ((∀ p ∈ db.persons, p.id ≠ d.person_id) →
      mark_attendance db d i c = (Except.error ⟨404, "Person not found"⟩, db)) ∧
    ((db.persons.map Person.id).Nodup →
      (delete_person db d.person_id).1 = Except.ok () →
      mark_attendance (delete_person db d.person_id).2 d i c =
        (Except.error ⟨404, "Person not found"⟩, (delete_person db d.person_id).2)) := by
  constructor
  · exact mark_attendance_absent db d i c
  · intro hnd hok
    apply mark_attendance_absent
    by_cases h : db.persons.any (fun p => p.id == d.person_id) = true
    · intro q hq
      apply eraseP_no_key d.person_id db.persons hnd q
      rw [delete_person, h] at hq
      simpa [delete_person_step2, delete_person_step1] using hq
    · rw [delete_person,
        (by simpa using h : db.persons.any (fun p => p.id == d.person_id) = false)] at hok
      simp at hok

/-- C4 witness: marking `personP` against the empty store fails with 404,
and so does marking them after their successful deletion. -/
theorem mark_attendance_person_not_found_witness :
    mark_attendance dbEmpty dW "a9" cC3 = (Except.error ⟨404, "Person not found"⟩, dbEmpty) ∧
    mark_attendance (delete_person dbC3 "p1").2 dW "a9" cC3 =
      (Except.error ⟨404, "Person not found"⟩, (delete_person dbC3 "p1").2) := by
  refine ⟨(mark_attendance_person_not_found dbEmpty dW "a9" cC3).1 (by decide), ?_⟩
  exact (mark_attendance_person_not_found dbC3 dW "a9" cC3).2 (by decide) (by rfl)

end FaceAttend

namespace FaceAttend

/-- C5: `get_attendance_stats` reads the store without changing it (its
type takes the store and returns only the stats record) and its result
always equals the specification formula: `total_registered` is the person
count, `present_today` the count of records dated today (local clock),
`absent_today = max 0 (total - present)`, and `attendance_rate` is 0 for an
empty registry and otherwise the percentage rounded to two decimals. -/
theorem get_attendance_stats_correct (db : DB) (c : Clock) :
    get_attendance_stats db c = statsSpec db c := by
  rw [get_attendance_stats, statsSpec]
  by_cases h : db.persons.length = 0
  · simp [h, round2_zero]
  · have h' : 0 < db.persons.length := Nat.pos_of_ne_zero h
    simp [h, h']

/-- C6: after a successful delete of a person, their attendance history is
the empty sequence, and the by-date listing of any date key contains no
record of that person. -/
theorem delete_clears_history (db : DB) (pid : String)
    (h : (delete_person db pid).1 = Except.ok ()) :
    get_person_attendance_history (delete_person db pid).2 pid = [] ∧
    ∀ s : String, ∀ r ∈ get_attendance_by_date (delete_person db pid).2 s,
      r.person_id ≠ pid := by
  by_cases hany : db.persons.any (fun p => p.id == pid) = true
  · have hdb2 : (delete_person db pid).2.attendance =
        db.attendance.filter (fun r => !(r.person_id == pid)) := by
      rw [delete_person, hany]
      simp [delete_person_step2, delete_person_step1]
    have hmem : ∀ r ∈ (delete_person db pid).2.attendance, r.person_id ≠ pid := by
      intro r hr
      rw [hdb2] at hr
      have h2 := List.mem_filter.mp hr
      simpa using h2.2
    constructor
    · rw [get_person_attendance_history]
      have hnil : (delete_person db pid).2.attendance.filter (fun r => r.person_id == pid) = [] := by
        rw [List.eq_nil_iff_forall_not_mem]
        intro r hr
        have h1 := List.mem_filter.mp hr
        exact hmem r h1.1 (by simpa using h1.2)
      rw [hnil]
      simp
    · intro s r hr
      have h1 : r ∈ (delete_person db pid).2.attendance := by
        have := List.mem_of_mem_take hr
        exact (List.mem_filter.mp this).1
      exact hmem r h1
  · rw [delete_person, (by simpa using hany : db.persons.any (fun p => p.id == pid) = false)] at h
    simp at h

/-- C6 witness: after deleting `personP` from a store holding their day-"0"
record, their history is empty and the day-"0" listing holds no record of
theirs. -/
theorem delete_clears_history_witness :
    get_person_attendance_history (delete_person dbC3 "p1").2 "p1" = [] ∧
    ∀ r ∈ get_attendance_by_date (delete_person dbC3 "p1").2 "0", r.person_id ≠ "p1" := by
  have h := delete_clears_history dbC3 "p1" (by rfl)
  exact ⟨h.1, h.2 "0"⟩

/-- C7: the attendance history of a person holds at most 100 records, every
element is one of the stored records of that person, it is ordered by
timestamp descending, it is a permutation of all that person's records
whenever they number at most 100, and any stored record of the person left
out is no more recent than every returned one. -/
theorem get_person_attendance_history_spec (db : DB) (pid : String) :
    (get_person_attendance_history db pid).length ≤ 100 ∧
    (∀ r ∈ get_person_attendance_history db pid, r.person_id = pid ∧ r ∈ db.attendance) ∧
    List.Pairwise (fun a b => b.timestamp ≤ a.timestamp) (get_person_attendance_history db pid) ∧
    ((db.attendance.filter (fun r => r.person_id == pid)).length ≤ 100 →
      (get_person_attendance_history db pid).Perm
        (db.attendance.filter (fun r => r.person_id == pid))) ∧
    (∀ s ∈ db.attendance.filter (fun r => r.person_id == pid),
      s ∉ get_person_attendance_history db pid →
      ∀ r ∈ get_person_attendance_history db pid, s.timestamp ≤ r.timestamp) := by
  have hhist : get_person_attendance_history db pid =
      ((db.attendance.filter (fun r => r.person_id == pid)).mergeSort
        (fun a b => b.timestamp ≤ a.timestamp)).take 100 := rfl
  have hsorted : ((db.attendance.filter (fun r => r.person_id == pid)).mergeSort
      (fun a b => b.timestamp ≤ a.timestamp)).Pairwise
        (fun a b => (decide (b.timestamp ≤ a.timestamp)) = true) := by
    apply List.sorted_mergeSort
    · intro a b c hab hbc
      simp only [decide_eq_true_eq] at *
      omega
    · intro a b
      simp only [Bool.or_eq_true, decide_eq_true_eq]
      omega
  refine ⟨?_, ?_, ?_, ?_, ?_⟩
  · rw [hhist, List.length_take]
    exact min_le_left _ _
  · intro r hr
    rw [hhist] at hr
    have h1 : r ∈ (db.attendance.filter (fun r => r.person_id == pid)) := by
      have := List.mem_of_mem_take hr
      simpa using this
    have h2 := List.mem_filter.mp h1
    exact ⟨by simpa using h2.2, h2.1⟩
  · rw [hhist]
    have hsub := hsorted.sublist (List.take_sublist 100 _)
    exact hsub.imp (by intro a b h; simpa using h)
  · intro hlen
    rw [hhist]
    have hlsrt : ((db.attendance.filter (fun r => r.person_id == pid)).mergeSort
        (fun a b => b.timestamp ≤ a.timestamp)).length ≤ 100 := by
      rw [List.length_mergeSort]
      exact hlen
    rw [List.take_of_length_le hlsrt]
    exact List.mergeSort_perm _ _
  · intro s hs hsnot r hr
    have hssrt : s ∈ ((db.attendance.filter (fun r => r.person_id == pid)).mergeSort
        (fun a b => b.timestamp ≤ a.timestamp)) := List.mem_mergeSort.mpr hs
    rw [hhist] at hsnot hr
    have hsplit := List.take_append_drop 100
      ((db.attendance.filter (fun r => r.person_id == pid)).mergeSort
        (fun a b => b.timestamp ≤ a.timestamp))
    rw [← hsplit] at hsorted hssrt
    have hsdrop : s ∈ ((db.attendance.filter (fun r => r.person_id == pid)).mergeSort
        (fun a b => b.timestamp ≤ a.timestamp)).drop 100 := by
      rcases List.mem_append.mp hssrt with h | h
      · exact absurd h hsnot
      · exact h
    have hrel := (List.pairwise_append.mp hsorted).2.2 r hr s hsdrop
    simpa using hrel

/-- C7 witness: on the store holding one record of `personP`, the history
is a permutation of all their stored records. -/
theorem get_person_attendance_history_spec_witness :
    (get_person_attendance_history dbC3 "p1").Perm
      (dbC3.attendance.filter (fun r => r.person_id == "p1")) :=
  (get_person_attendance_history_spec dbC3 "p1").2.2.2.1 (by decide)

end FaceAttend

namespace FaceAttend

/-- C8 counterexample: the code creates no unique indexes, so an insert
never fails on a duplicate; when two registrations of "EMP001" interleave
as check, check, insert, insert (each pre-check against the store before
either insert), both succeed and the store ends with two persons sharing
the employee id, violating invariant I1. -/
theorem storage_uniqueness_cex :
    create_person_check dbEmpty "EMP001" = false ∧
    (raceDb.persons.filter (fun p => p.employee_id == "EMP001")).length = 2 ∧
    ¬ (raceDb.persons.map Person.employee_id).Nodup := by
  decide

/-- C8 amended: uniqueness is enforced only by the find-then-insert
pre-check; the storage layer has no unique constraint and its inserts never
fail, so whenever two registrations with the same employee id (or two
markings of the same person on the same day) each run their pre-check
before either insert, both succeed and the store ends with two persons
sharing the employee id (respectively two records sharing the
`(person_id, date)` key). -/
theorem check_then_insert_race (db : DB) (d1 d2 : PersonCreate) (i1 i2 : String)
    (c1 c2 : Clock) (a1 a2 : AttendanceCreate) (j1 j2 : String) (k : Clock)
    (hde : d2.employee_id = d1.employee_id)
    (hchk : create_person_check db d1.employee_id = false)
    (hae : a2.person_id = a1.person_id)
    (hmchk : mark_attendance_check db a1.person_id (dayKey k.localNow) = false) :
    ((create_person_insert (create_person_insert db (mkPerson d1 i1 c1))
        (mkPerson d2 i2 c2)).persons.filter
          (fun p => p.employee_id == d1.employee_id)).length = 2 ∧
    ((mark_attendance_insert (mark_attendance_insert db (mkAttendanceRecord a1 j1 k))
        (mkAttendanceRecord a2 j2 k)).attendance.filter
          (fun r => r.person_id == a1.person_id && r.date == dayKey k.localNow)).length = 2 := by
  constructor
  · have hnone : db.persons.filter (fun p => p.employee_id == d1.employee_id) = [] := by
      rw [List.eq_nil_iff_forall_not_mem]
      intro p hp
      have h2 := List.mem_filter.mp hp
      have hc := (create_person_check_iff db d1.employee_id).mpr ⟨p, h2.1, by simpa using h2.2⟩
      rw [hchk] at hc
      exact Bool.false_ne_true hc
    simp [create_person_insert, List.filter_append, hnone, mkPerson, hde]
  · have hnone : db.attendance.filter
        (fun r => r.person_id == a1.person_id && r.date == dayKey k.localNow) = [] := by
      rw [List.eq_nil_iff_forall_not_mem]
      intro r hr
      have h2 := List.mem_filter.mp hr
      have h3 : r.person_id = a1.person_id ∧ r.date = dayKey k.localNow := by
        simpa using h2.2
      have hc := (mark_attendance_check_iff db a1.person_id (dayKey k.localNow)).mpr ⟨r, h2.1, h3⟩
      rw [hmchk] at hc
      exact Bool.false_ne_true hc
    simp [mark_attendance_insert, List.filter_append, hnone, mkAttendanceRecord, hae]

/-- C8 witness: the interleaved double registration of "EMP001" from the
empty store leaves two persons with that employee id, and the interleaved
double marking of `personP` on one day leaves two records with the same
`(person_id, date)` key. -/
theorem check_then_insert_race_witness :
    ((create_person_insert (create_person_insert dbEmpty (mkPerson pcA "u1" ⟨0, 0⟩))
        (mkPerson pcB "u2" ⟨0, 0⟩)).persons.filter
          (fun p => p.employee_id == pcA.employee_id)).length = 2 ∧
    ((mark_attendance_insert (mark_attendance_insert dbEmpty (mkAttendanceRecord dW "m1" cC3))
        (mkAttendanceRecord dW "m2" cC3)).attendance.filter
          (fun r => r.person_id == dW.person_id && r.date == dayKey cC3.localNow)).length = 2 :=
  check_then_insert_race dbEmpty pcA pcB "u1" "u2" ⟨0, 0⟩ ⟨0, 0⟩ dW dW "m1" "m2" cC3
    (by decide) (by decide) (by decide) (by decide)

/-- C9: every record returned by a successful mark carries its `timestamp`
from the UTC clock and its `date` key from the local clock; whenever the
two clocks fall on different calendar days, the record's `date` differs
from the calendar day of its own `timestamp`. -/
theorem mark_timestamp_utc_date_local (db : DB) (d : AttendanceCreate) (i : String) (c : Clock)
    (r0 : AttendanceRecord) (db2 : DB)
    (h : mark_attendance db d i c = (Except.ok r0, db2)) :
    r0.timestamp = c.utcNow ∧ r0.date = dayKey c.localNow ∧
    (dayKey c.localNow ≠ dayKey c.utcNow → r0.date ≠ dayKey r0.timestamp) := by
  by_cases hp : (db.persons.find? (fun p => p.id == d.person_id)).isNone = true
  · rw [mark_attendance, hp] at h
    simp at h
  · have hp' : (db.persons.find? (fun p => p.id == d.person_id)).isNone = false := by
      simpa using hp
    by_cases hm : mark_attendance_check db d.person_id (dayKey c.localNow) = true
    · rw [mark_attendance, hp', hm] at h
      simp at h
    · have hm' : mark_attendance_check db d.person_id (dayKey c.localNow) = false := by
        simpa using hm
      rw [mark_attendance, hp', hm'] at h
      simp only [Bool.false_eq_true, if_false, Prod.mk.injEq, Except.ok.injEq] at h
      obtain ⟨rfl, -⟩ := h
      refine ⟨rfl, rfl, ?_⟩
      intro hne
      simpa [mkAttendanceRecord] using hne

/-- C9 witness: marking `personP` under a clock whose UTC reading is on day
"1" while local time is on day "0" yields a record whose `date` is not the
calendar day of its own `timestamp`. -/
theorem mark_timestamp_utc_date_local_witness :
    (mkAttendanceRecord dW "a1" cW).timestamp = cW.utcNow ∧
    (mkAttendanceRecord dW "a1" cW).date = dayKey cW.localNow ∧
    (mkAttendanceRecord dW "a1" cW).date ≠ dayKey (mkAttendanceRecord dW "a1" cW).timestamp := by
  have h := mark_timestamp_utc_date_local dbOneP dW "a1" cW (mkAttendanceRecord dW "a1" cW)
    (mark_attendance_insert dbOneP (mkAttendanceRecord dW "a1" cW)) (by rfl)
  exact ⟨h.1, h.2.1, h.2.2 (by decide)⟩

end FaceAttend

namespace FaceAttend

set_option maxRecDepth 8000

/-- C10 counterexample: the by-date query truncates at 1000 rows, so on a
store with 1001 records dated "0" it returns 1000 of the 1001 matching
records rather than exactly all of them. -/
theorem by_date_cap_cex :
    (get_attendance_by_date dbBig "0").length = 1000 ∧
    (dbBig.attendance.filter (fun r => r.date == "0")).length = 1001 := by
  have hf : dbBig.attendance.filter (fun r => r.date == "0") = dbBig.attendance := by
    apply List.filter_eq_self.mpr
    intro a ha
    rcases List.mem_map.mp ha with ⟨i, -, rfl⟩
    rfl
  have hlen : dbBig.attendance.length = 1001 := by
    show ((List.range 1001).map bigRec).length = 1001
    rw [List.length_map, List.length_range]
  constructor
  · rw [get_attendance_by_date, hf, List.length_take, hlen]
    decide
  · rw [hf, hlen]

/-- C10 amended: the by-date operation takes any string as an exact match
key with no validation and no business-failure path: every returned record
is stored and dated with the given string, at most 1000 records are
returned (all matching ones whenever the store holds at most 1000 records),
and any string matching no stored record, in particular any string that is
not a server-assigned day key, yields the empty sequence. -/
theorem get_attendance_by_date_spec (db : DB) (s : String) :
    (∀ r ∈ get_attendance_by_date db s, r.date = s ∧ r ∈ db.attendance) ∧
    (get_attendance_by_date db s).length ≤ 1000 ∧
    ((∀ r ∈ db.attendance, r.date ≠ s) → get_attendance_by_date db s = []) ∧
    (db.attendance.length ≤ 1000 →
      get_attendance_by_date db s = db.attendance.filter (fun r => r.date == s)) := by
  refine ⟨?_, ?_, ?_, ?_⟩
  · intro r hr
    have h1 := List.mem_of_mem_take hr
    have h2 := List.mem_filter.mp h1
    exact ⟨by simpa using h2.2, h2.1⟩
  · rw [get_attendance_by_date, List.length_take]
    exact min_le_left _ _
  · intro hall
    rw [get_attendance_by_date]
    have hnil : db.attendance.filter (fun r => r.date == s) = [] := by
      rw [List.eq_nil_iff_forall_not_mem]
      intro r hr
      have h2 := List.mem_filter.mp hr
      exact hall r h2.1 (by simpa using h2.2)
    rw [hnil]
    rfl
  · intro hlen
    rw [get_attendance_by_date]
    exact List.take_of_length_le (le_trans (List.length_filter_le _ _) hlen)

/-- C10 witness: a date string matching no stored record yields the empty
sequence, and on a small store the query returns exactly the matching
records. -/
theorem get_attendance_by_date_spec_witness :
    get_attendance_by_date dbC3 "1999-01-01" = [] ∧
    get_attendance_by_date dbC3 "0" = dbC3.attendance.filter (fun r => r.date == "0") := by
  refine ⟨(get_attendance_by_date_spec dbC3 "1999-01-01").2.2.1 (by decide), ?_⟩
  exact (get_attendance_by_date_spec dbC3 "0").2.2.2 (by decide)

end FaceAttend
